import Mathlib

/-!
Verification of the Monsti RPC-client service library (`package service`).

The Go source is shallowly embedded: Go maps become association lists with
Go-map lookup/overwrite semantics, in-place mutation of a `*Node` becomes
explicit state passing (each operation returns the node as the caller sees
it afterwards), the `net/rpc` transport becomes an explicit reply argument
plus a trace of the remote procedures actually invoked, JSON / gob byte
payloads become abstract parsed shapes (a zero-length payload, a malformed
payload and a well-formed envelope are distinguished), and Go panics become
a distinct `panicked` outcome, separate from returned `error` values.
-/

deriving instance DecidableEq for Except

namespace Monsti

/-! ### Go map semantics on association lists -/

section AssocMap

variable {K V : Type} [DecidableEq K]

/-- Go map read `m[k]`: the value stored under `k`, if any. -/
def mapLookup : List (K × V) → K → Option V
  | [], _ => none
  | (k', v') :: rest, k => if k' = k then some v' else mapLookup rest k

/-- Go map write `m[k] = v`: overwrite the binding if present, else add it. -/
def mapInsert : List (K × V) → K → V → List (K × V)
  | [], k, v => [(k, v)]
  | (k', v') :: rest, k, v =>
    if k' = k then (k, v) :: rest else (k', v') :: mapInsert rest k v

theorem mapLookup_insert_self (m : List (K × V)) (k : K) (v : V) :
    mapLookup (mapInsert m k v) k = some v := by
  induction m with
  | nil => simp [mapInsert, mapLookup]
  | cons p rest ih =>
    by_cases h : p.1 = k
    · simp [mapInsert, h, mapLookup]
    · simp [mapInsert, h, mapLookup, ih]

theorem mapLookup_insert_ne (m : List (K × V)) (k k' : K) (v : V)
    (h : k' ≠ k) : mapLookup (mapInsert m k' v) k = mapLookup m k := by
  induction m with
  | nil => simp [mapInsert, mapLookup, h]
  | cons p rest ih =>
    by_cases hp : p.1 = k'
    · simp [mapInsert, hp, mapLookup, h]
    · by_cases hk : p.1 = k
      · simp [mapInsert, hp, mapLookup, hk, Ne.symm h]
      · simp [mapInsert, hp, mapLookup, hk, ih]

end AssocMap

/-! ### Data model

`Node`, `NodeType`, `FieldType` and the `Field` interface are declared in a
part of the repository that is not under `src/`; they are modelled from the
spec (section 3).  Field values are polymorphic over concrete field
implementations, abstracted by `FieldModel`. -/

/-- A raw, independently parseable field dump (`json.RawMessage`). -/
abbrev Raw := String

/-- Modelled from the spec: a `FieldType` is a named slot with a namespaced
id of the form `"<group>.<name>"` (only the id is used by the codec). -/
structure FieldType where
  Id : String
deriving DecidableEq, Repr

/-- Modelled from the spec: a `NodeType` identifies a document kind by a
global id string and declares a list of `FieldType` descriptors. -/
structure NodeType where
  Id : String
  Fields : List FieldType
deriving DecidableEq, Repr

/-- Modelled from the spec: the operations of a concrete `Field`
implementation over value type `F` — "dump to serializable form"
(`Dump` composed with `json.Marshal`, which may fail), fresh
initialization of a declared field (`InitFields`, which may fail), and
"load from serializable form" (`Load`; the Go call site discards `Load`'s
error, so load is total here). -/
structure FieldModel (F : Type) where
  dump : F → Option Raw
  initial : FieldType → Option F
  load : F → Raw → F

/-- Modelled from the spec: a content entity — absolute path, a reference
to its `NodeType`, a last-changed timestamp, node-local extra field
declarations, and a mapping from fully-qualified field id to field value. -/
structure Node (F : Type) where
  Path : String
  Type' : NodeType
  Changed : Nat
  LocalFields : List FieldType
  Fields : List (String × F)
deriving DecidableEq

/-- `append(node.Type.Fields, node.LocalFields...)` — the declared fields. -/
def nodeFieldList {F : Type} (node : Node F) : List FieldType :=
  node.Type'.Fields ++ node.LocalFields

/-- Splits a character sequence at its first dot, if any. -/
def breakDot : List Char → Option (List Char × List Char)
  | [] => none
  | c :: rest =>
    if c = '.' then some ([], rest)
    else (breakDot rest).map (fun p => (c :: p.1, p.2))

/-- `strings.SplitN(s, ".", 2)`: group before the first dot, and the rest
after it (`none` when `s` has no dot, in which case `parts[1]` panics). -/
def splitId (s : String) : String × Option String :=
  match breakDot s.data with
  | none => (s, none)
  | some (g, nm) => (⟨g⟩, some ⟨nm⟩)

/-- The `(group, name)` key of a declared field, when its id contains a
dot. -/
def fieldKey (ft : FieldType) : Option (String × String) :=
  match splitId ft.Id with
  | (g, some nm) => some (g, nm)
  | (_, none) => none

/-- The JSON envelope (`type nodeJSON struct`): the embedded node's
serialized attributes (its `Type` and `Fields` are shadowed by the outer
struct's fields), the node-type id, and the group/name → raw-dump map. -/
structure nodeJSON where
  Path : String
  Changed : Nat
  LocalFields : List FieldType
  Type' : String
  Fields : List ((String × String) × Raw)
deriving DecidableEq

/-- Exits of `nodeToData`: a returned error (`Could not marshal field`) or
a Go panic (nil-interface `Dump` on a missing field; `parts[1]` index out
of range when the field id has no dot). -/
inductive EncErr
  | marshalField
  | panicNilField
  | panicIndex
deriving DecidableEq, Repr

/-- Whether the encode exit is a Go panic rather than a returned error. -/
def EncErr.isPanic : EncErr → Bool
  | .marshalField => false
  | .panicNilField => true
  | .panicIndex => true

/-- The field-dump loop of `nodeToData`: for each declared field, dump the
node's field value (panicking on a missing field value, failing if the
marshal fails, panicking if the id has no dot) and store the raw dump
under its `(group, name)` key. -/
def encodeFields {F : Type} (fm : FieldModel F) (flds : List (String × F)) :
    List FieldType → List ((String × String) × Raw) →
    Except EncErr (List ((String × String) × Raw))
  | [], acc => .ok acc
  | ft :: rest, acc =>
    match mapLookup flds ft.Id with
    | none => .error .panicNilField
    | some f =>
      match fm.dump f with
      | none => .error .marshalField
      | some r =>
        match splitId ft.Id with
        | (_, none) => .error .panicIndex
        | (g, some nm) => encodeFields fm flds rest (mapInsert acc (g, nm) r)

/-- `nodeToData`: converts the node to its JSON envelope.  The `Path`
field is cleared before the encode and restored by a deferred write on
every exit path (including panics); the second component is the node as
the caller observes it after the call.  `indent` only selects pretty
printing in Go and does not change the envelope. -/
def nodeToData {F : Type} (fm : FieldModel F) (node : Node F)
    (indent : Bool) : Except EncErr nodeJSON × Node F :=
  let path := node.Path
  let node1 : Node F := { node with Path := "" }
  let _ := indent
  match encodeFields fm node1.Fields (nodeFieldList node1) [] with
  | .error e => (.error e, { node1 with Path := path })
  | .ok fs =>
    (.ok { Path := node1.Path, Changed := node1.Changed,
           LocalFields := node1.LocalFields, Type' := node1.Type'.Id,
           Fields := fs },
     { node1 with Path := path })

/-- A node payload as received on the wire: zero-length (`len(data) == 0`),
bytes that `json.Unmarshal` rejects, or a well-formed envelope. -/
inductive NodeData
  | empty
  | bad
  | good (env : nodeJSON)
deriving DecidableEq

/-- Exits of `dataToNode`: returned errors (`Could not unmarshal node`,
`Could not get node type`, `Could not init node fields`) or Go panics
(`parts[1]` out of range for a dotless field id; `Load` on a nil-interface
field value missing from the freshly initialized field map). -/
inductive DecErr
  | unmarshal
  | unknownType (id : String) (msg : String)
  | initFieldsFailed
  | panicIndex
  | panicNilField
deriving DecidableEq, Repr

/-- Whether the decode exit is a Go panic rather than a returned error. -/
def DecErr.isPanic : DecErr → Bool
  | .panicIndex => true
  | .panicNilField => true
  | _ => false

/-- Modelled from the spec: `Node.InitFields` initializes an empty `Field`
object for every declared field and local field (failing if a field cannot
be initialized). -/
def initFields {F : Type} (fm : FieldModel F) :
    List FieldType → List (String × F) → Option (List (String × F))
  | [], acc => some acc
  | ft :: rest, acc =>
    match fm.initial ft with
    | none => none
    | some f => initFields fm rest (mapInsert acc ft.Id f)

/-- The field-load loop of `dataToNode`: for each declared field, look up
its raw dump by `(group, name)`; when present, load it through the field's
own `Load` operation (overwriting the freshly initialized value); an
absent raw dump is skipped.  Also returns the ids whose `Load` operation
was invoked. -/
def loadFields {F : Type} (fm : FieldModel F)
    (raws : List ((String × String) × Raw)) :
    List FieldType → List (String × F) → List String →
    Except DecErr (List (String × F) × List String)
  | [], acc, loaded => .ok (acc, loaded)
  | ft :: rest, acc, loaded =>
    match splitId ft.Id with
    | (_, none) => .error .panicIndex
    | (g, some nm) =>
      match mapLookup raws (g, nm) with
      | none => loadFields fm raws rest acc loaded
      | some r =>
        match mapLookup acc ft.Id with
        | none => .error .panicNilField
        | some f =>
          loadFields fm raws rest (mapInsert acc ft.Id (fm.load f r))
            (loaded ++ [ft.Id])

/-- `dataToNode`: unmarshals the given data.  Zero-length data yields "no
node" (`nil, nil`); otherwise the envelope is parsed, the node type
resolved via `getNodeType`, the fields freshly initialized, and each
declared field's raw dump (when present) loaded.  The second component
lists the field ids whose `Load` was invoked. -/
def dataToNode {F : Type} (fm : FieldModel F) (data : NodeData)
    (getNodeType : String → Except String NodeType) :
    Except DecErr (Option (Node F)) × List String :=
  match data with
  | .empty => (.ok none, [])
  | .bad => (.error .unmarshal, [])
  | .good env =>
    match getNodeType env.Type' with
    | .error e => (.error (.unknownType env.Type' e), [])
    | .ok nt =>
      match initFields fm (nt.Fields ++ env.LocalFields) [] with
      | none => (.error .initFieldsFailed, [])
      | some f0 =>
        match loadFields fm env.Fields (nt.Fields ++ env.LocalFields) f0 [] with
        | .error e => (.error e, [])
        | .ok (flds, loaded) =>
          (.ok (some { Path := env.Path, Type' := nt, Changed := env.Changed,
                       LocalFields := env.LocalFields, Fields := flds }),
           loaded)

/-! ### RPC client

The embedded `Client` type (sticky `Error`, connection `Id`, `RPCClient`)
is declared outside `src/`; it is modelled from the spec: an RPC client
carries a sticky first-error that disables all further calls on that
instance.  The transport is abstracted: each operation takes the broker's
(typed, already decoded) reply as an explicit argument and returns, next
to its result, the list of remote procedures it actually invoked, so that
"no transport I/O" is the trace being empty. -/

/-- Error values (`error`), as their message strings. -/
abbrev Err := String

/-- Outcome of a client operation: a returned value, a returned non-nil
`error`, or a Go panic. -/
inductive ROut (α : Type)
  | ok (a : α)
  | err (e : Err)
  | panicked
deriving DecidableEq

/-- The signal payload universe (`interface{}` values) is a type parameter
`V`.  Modelled from the spec: a `MonstiClient` is an RPC `Client` (sticky
`Error`, connection `Id`) plus its local `SignalHandlers` map. -/
structure MonstiClient (V : Type) where
  Error : Option Err
  Id : String
  SignalHandlers : List (String × (V → Except Err V))

/-- A gob-encoded payload as seen after transport: a well-formed encoding
of a wrapped value (`argWrap`), or bytes the decoder rejects. -/
inductive GobMsg (V : Type)
  | wrap (v : V)
  | corrupt
deriving DecidableEq

namespace MonstiClient

variable {V F : Type}

/-- `ModuleInitDone`: tells Monsti that the module finished its
initialization. -/
def ModuleInitDone (s : MonstiClient V) (module : String)
    (reply : Except Err Unit) : ROut Unit × List String :=
  let _ := module
  match s.Error with
  | some e => (.err e, [])
  | none =>
    match reply with
    | .error e =>
      (.err ("service: ModuleInitDone error: " ++ e), ["Monsti.ModuleInitDone"])
    | .ok _ => (.ok (), ["Monsti.ModuleInitDone"])

/-- Message text of an encode error (`%v` of the wrapped cause). -/
def encErrMsg : EncErr → String
  | .marshalField => "Could not marshal field"
  | _ => ""

/-- Message text of a decode error (`%v` of the wrapped cause). -/
def decErrMsg : DecErr → String
  | .unmarshal => "service: Could not unmarshal node"
  | .unknownType id msg => "Could not get node type " ++ id ++ ": " ++ msg
  | .initFieldsFailed => "Could not init node fields"
  | _ => ""

/-- `GetNode`: reads the given node; on a sticky-error client it returns
`nil, nil` without touching the transport. -/
def GetNode (fm : FieldModel F) (s : MonstiClient V) (site path : String)
    (reply : Except Err NodeData)
    (getNodeType : String → Except String NodeType) :
    ROut (Option (Node F)) × List String :=
  let _ := site; let _ := path
  match s.Error with
  | some _ => (.ok none, [])
  | none =>
    match reply with
    | .error e => (.err ("service: GetNode error: " ++ e), ["Monsti.GetNode"])
    | .ok data =>
      match (dataToNode fm data getNodeType).1 with
      | .error de =>
        if de.isPanic then (.panicked, ["Monsti.GetNode"])
        else (.err ("service: Could not convert node: " ++ decErrMsg de),
              ["Monsti.GetNode"])
      | .ok node => (.ok node, ["Monsti.GetNode"])

/-- The decode loop of `GetChildren` over the reply's entries. -/
def convChildren (fm : FieldModel F)
    (getNodeType : String → Except String NodeType) :
    List NodeData → List (Option (Node F)) → ROut (List (Option (Node F)))
  | [], acc => .ok acc.reverse
  | entry :: rest, acc =>
    match (dataToNode fm entry getNodeType).1 with
    | .error de =>
      if de.isPanic then .panicked
      else .err ("service: Could not convert node: " ++ decErrMsg de)
    | .ok node => convChildren fm getNodeType rest (node :: acc)

/-- `GetChildren`: returns the children of the given node, decoding each
entry of the reply. -/
def GetChildren (fm : FieldModel F) (s : MonstiClient V) (site path : String)
    (reply : Except Err (List NodeData))
    (getNodeType : String → Except String NodeType) :
    ROut (List (Option (Node F))) × List String :=
  let _ := site; let _ := path
  match s.Error with
  | some e => (.err e, [])
  | none =>
    match reply with
    | .error e =>
      (.err ("service: GetChildren error: " ++ e), ["Monsti.GetChildren"])
    | .ok entries =>
      (convChildren fm getNodeType entries [], ["Monsti.GetChildren"])

/-- Raw per-node blob contents (`[]byte`). -/
abbrev Bytes := List Nat

/-- `GetNodeData`: requests data from some node. -/
def GetNodeData (s : MonstiClient V) (site path file : String)
    (reply : Except Err Bytes) : ROut Bytes × List String :=
  let _ := site; let _ := path; let _ := file
  match s.Error with
  | some e => (.err e, [])
  | none =>
    match reply with
    | .error e =>
      (.err ("service: GetNodeData error:" ++ e), ["Monsti.GetNodeData"])
    | .ok bytes => (.ok bytes, ["Monsti.GetNodeData"])

/-- `WriteNodeData`: writes data (of any serialized shape `β`) for some
node. -/
def WriteNodeData {β : Type} (s : MonstiClient V) (site path file : String)
    (content : β) (reply : Except Err Unit) : ROut Unit × List String :=
  let _ := site; let _ := path; let _ := file; let _ := content
  match s.Error with
  | some _ => (.ok (), [])
  | none =>
    match reply with
    | .error e =>
      (.err ("service: WriteNodeData error: " ++ e), ["Monsti.WriteNodeData"])
    | .ok _ => (.ok (), ["Monsti.WriteNodeData"])

/-- Result of `WriteNode`: the returned outcome, the caller's node as
observed after the call, the envelope actually sent to
`Monsti.WriteNodeData` (if any), and the invoked procedures. -/
structure WriteNodeOut (F : Type) where
  res : ROut Unit
  node : Node F
  written : Option nodeJSON
  calls : List String

/-- `WriteNode`: stamps `node.Changed` with the current UTC time, encodes
the node and writes it as `node.json` via `WriteNodeData`. -/
def WriteNode (fm : FieldModel F) (s : MonstiClient V) (site path : String)
    (node : Node F) (now : Nat) (writeReply : Except Err Unit) :
    WriteNodeOut F :=
  match s.Error with
  | some _ => ⟨.ok (), node, none, []⟩
  | none =>
    let node1 : Node F := { node with Changed := now }
    match nodeToData fm node1 true with
    | (.error e, node2) =>
      if e.isPanic then ⟨.panicked, node2, none, []⟩
      else ⟨.err ("service: Could not convert node: " ++ encErrMsg e),
            node2, none, []⟩
    | (.ok env, node2) =>
      match WriteNodeData s site path "node.json" env writeReply with
      | (.ok _, calls) => ⟨.ok (), node2, some env, calls⟩
      | (.err e, calls) =>
        ⟨.err ("service: Could not write node: " ++ e), node2, some env, calls⟩
      | (.panicked, calls) => ⟨.panicked, node2, some env, calls⟩

/-- `RemoveNode`: recursively removes the given site's node. -/
def RemoveNode (s : MonstiClient V) (site node : String)
    (reply : Except Err Unit) : ROut Unit × List String :=
  let _ := site; let _ := node
  match s.Error with
  | some _ => (.ok (), [])
  | none =>
    match reply with
    | .error e =>
      (.err ("service: RemoveNode error: " ++ e), ["Monsti.RemoveNode"])
    | .ok _ => (.ok (), ["Monsti.RemoveNode"])

/-- `RenameNode`: renames (moves) the given site's node. -/
def RenameNode (s : MonstiClient V) (site source target : String)
    (reply : Except Err Unit) : ROut Unit × List String :=
  let _ := site; let _ := source; let _ := target
  match s.Error with
  | some _ => (.ok (), [])
  | none =>
    match reply with
    | .error e =>
      (.err ("service: RenameNode error: " ++ e), ["Monsti.RenameNode"])
    | .ok _ => (.ok (), ["Monsti.RenameNode"])

end MonstiClient

/-! ### Site configuration -/

/-- A `GetSiteConfig` reply as seen after transport: zero-length bytes,
bytes `json.Unmarshal` rejects for `map[string]*T`, or a parsed object —
a list of entries whose values are decoded `*T` pointers (`none` for JSON
`null`), in Go's key enumeration order. -/
inductive ConfReply (V : Type)
  | empty
  | bad
  | obj (entries : List (String × Option V))
deriving DecidableEq

/-- `getConfig`: a zero-length reply leaves `out` untouched; otherwise the
reply is decoded as a `{name: value}` object and the first enumerated
key's value is written to `out` (a `null` value leaves `out` untouched).
`MapKeys()[0]` on an empty object panics (index out of range). -/
def getConfig {V : Type} (reply : ConfReply V) (out : V) : ROut V :=
  match reply with
  | .empty => .ok out
  | .bad => .err "service: Could not decode configuration"
  | .obj [] => .panicked
  | .obj ((_, value) :: _) =>
    match value with
    | some v => .ok v
    | none => .ok out

namespace MonstiClient

variable {V F W : Type}

/-- `GetSiteConfig`: puts the named site-local configuration into `out`
(returned as the `ROut` value; `.ok` carries the final contents of
`out`). -/
def GetSiteConfig (s : MonstiClient V) (site name : String)
    (reply : Except Err (ConfReply W)) (out : W) : ROut W × List String :=
  let _ := site; let _ := name
  match s.Error with
  | some e => (.err e, [])
  | none =>
    match reply with
    | .error e =>
      (.err ("service: GetSiteConfig error: " ++ e), ["Monsti.GetSiteConfig"])
    | .ok r => (getConfig r out, ["Monsti.GetSiteConfig"])

end MonstiClient

/-! ### Requests -/

/-- `type RequestMethod uint` and its constants. -/
abbrev RequestMethod := Nat

/-- `GetRequest` method constant (`iota` value 0). -/
def GetRequestMethod : RequestMethod := 0

/-- `PostRequest` method constant (`iota` value 1). -/
def PostRequestMethod : RequestMethod := 1

/-- `type Action uint` and its constants (`iota` values 0..7). -/
abbrev Action := Nat

def ViewAction : Action := 0
def EditAction : Action := 1
def LoginAction : Action := 2
def LogoutAction : Action := 3
def AddAction : Action := 4
def RemoveAction : Action := 5
def RequestPasswordTokenAction : Action := 6
def ChangePasswordAction : Action := 7

/-- `User`: a registered user of the site. -/
structure User where
  Login : String
  Name : String
  Email : String
  Password : String
  PasswordChanged : Nat
deriving DecidableEq

/-- `UserSession`: a session of an authenticated or anonymous user. -/
structure UserSession where
  User : Option User
  Locale : String
deriving DecidableEq

/-- `url.Values`: a map from keys to lists of values. -/
abbrev Values := List (String × List String)

/-- `Request`: a request to be processed by a nodes service. -/
structure Request where
  Id : Nat
  NodePath : String
  Site : String
  Query : Values
  Method : RequestMethod
  Session : Option UserSession
  Action : Action
  FormData : Values
deriving DecidableEq

namespace MonstiClient

variable {V F : Type}

/-- `GetRequest`: returns the request with the given id; a reply whose
`Id` differs from the queried id yields `nil, nil`. -/
def GetRequest (s : MonstiClient V) (id : Nat)
    (reply : Except Err Request) : ROut (Option Request) × List String :=
  match s.Error with
  | some e => (.err e, [])
  | none =>
    match reply with
    | .error e =>
      (.err ("service: Monsti.GetRequest error: " ++ e), ["Monsti.GetRequest"])
    | .ok req =>
      if req.Id ≠ id then (.ok none, ["Monsti.GetRequest"])
      else (.ok (some req), ["Monsti.GetRequest"])

/-! ### Signals -/

/-- The reply-decode loop of `EmitSignal` over the collected answers. -/
def decodeRets : List (GobMsg V) → List V → ROut (List V)
  | [], acc => .ok acc.reverse
  | .corrupt :: _, _ => .err "service: Could not decode signal return value"
  | .wrap v :: rest, acc => decodeRets rest (v :: acc)

/-- `EmitSignal`: emits the named signal with the given argument, then
decodes every collected answer (gob type registration and the
`argWrap`-encoding of the argument always succeed in this model). -/
def EmitSignal (s : MonstiClient V) (name : String) (args : V)
    (reply : Except Err (List (GobMsg V))) : ROut (List V) × List String :=
  let _ := name; let _ := args
  match s.Error with
  | some e => (.err e, [])
  | none =>
    match reply with
    | .error e =>
      (.err ("service: Monsti.EmitSignal error: " ++ e), ["Monsti.EmitSignal"])
    | .ok rets => (decodeRets rets [], ["Monsti.EmitSignal"])

/-- Result of `WaitSignal`: the returned outcome, the invoked remote
procedures, the arguments the local handler was invoked with, and the
result reported via `Monsti.FinishSignal` (if that call was issued). -/
structure WaitSignalOut (V : Type) where
  res : ROut Unit
  calls : List String
  handlerCalls : List V
  finished : Option (GobMsg V)
deriving DecidableEq

/-- `WaitSignal`: waits for the next emitted signal, decodes its argument,
invokes the locally registered handler for the delivered name (a missing
handler is a nil-function call, i.e. a panic), and reports the handler's
result back via `Monsti.FinishSignal` — unless the handler returned an
error, in which case `WaitSignal` returns at once. -/
def WaitSignal (s : MonstiClient V)
    (waitReply : Except Err (String × GobMsg V))
    (finishReply : Except Err Unit) : WaitSignalOut V :=
  match s.Error with
  | some e => ⟨.err e, [], [], none⟩
  | none =>
    match waitReply with
    | .error e =>
      ⟨.err ("service: Monsti.WaitSignal error: " ++ e),
       ["Monsti.WaitSignal"], [], none⟩
    | .ok (name, args) =>
      match args with
      | .corrupt =>
        ⟨.err "service: Could not decode signal argumens",
         ["Monsti.WaitSignal"], [], none⟩
      | .wrap v =>
        match mapLookup s.SignalHandlers name with
        | none => ⟨.panicked, ["Monsti.WaitSignal"], [], none⟩
        | some handle =>
          match handle v with
          | .error e =>
            ⟨.err ("service: Signal handler for " ++ name ++
                   " returned error: " ++ e),
             ["Monsti.WaitSignal"], [v], none⟩
          | .ok ret =>
            match finishReply with
            | .error e =>
              ⟨.err ("service: Monsti.FinishSignal error: " ++ e),
               ["Monsti.WaitSignal", "Monsti.FinishSignal"], [v],
               some (.wrap ret)⟩
            | .ok _ =>
              ⟨.ok (), ["Monsti.WaitSignal", "Monsti.FinishSignal"], [v],
               some (.wrap ret)⟩

end MonstiClient

/-! ### Concrete fixtures (used by witnesses and counterexamples) -/

/-- A concrete field implementation over `String` values: dumping is the
identity, a fresh field is empty, loading replaces the value. -/
def fm0 : FieldModel String :=
  { dump := fun f => some f, initial := fun _ => some "", load := fun _ r => r }

/-- The `"page"` node type of the spec's example scenario. -/
def pageType : NodeType :=
  { Id := "page", Fields := [{ Id := "core.title" }, { Id := "core.body" }] }

/-- The example node at `/about` with title `"About Us"` and body
`"Hello"`. -/
def n0 : Node String :=
  { Path := "/about", Type' := pageType, Changed := 5, LocalFields := [],
    Fields := [("core.title", "About Us"), ("core.body", "Hello")] }

/-- A type resolver that knows exactly the `"page"` type. -/
def resolver0 : String → Except String NodeType :=
  fun id => if id = "page" then .ok pageType else .error "no such node type"

/-- An open client (no sticky error, no signal handlers). -/
def client0 : MonstiClient Nat :=
  { Error := none, Id := "client0", SignalHandlers := [] }

/-- A client whose connection failed: its sticky error is set. -/
def clientErr : MonstiClient Nat :=
  { Error := some "connection failed", Id := "clientErr",
    SignalHandlers := [] }

/-- An open client with one registered signal handler for `"sig"` that
always fails. -/
def clientH : MonstiClient Nat :=
  { Error := none, Id := "clientH",
    SignalHandlers := [("sig", fun _ => .error "boom")] }

/-! ### Frame lemmas for the encoder -/

theorem nodeToData_snd {F : Type} (fm : FieldModel F) (node : Node F)
    (indent : Bool) : (nodeToData fm node indent).2 = node := by
  simp only [nodeToData]
  split <;> rfl

theorem nodeToData_ok_path {F : Type} (fm : FieldModel F) (node : Node F)
    (indent : Bool) (env : nodeJSON)
    (h : (nodeToData fm node indent).1 = .ok env) : env.Path = "" := by
  simp only [nodeToData] at h
  split at h <;> simp_all
  subst h; rfl

theorem nodeToData_ok_changed {F : Type} (fm : FieldModel F) (node : Node F)
    (indent : Bool) (env : nodeJSON)
    (h : (nodeToData fm node indent).1 = .ok env) :
    env.Changed = node.Changed := by
  simp only [nodeToData] at h
  split at h <;> simp_all
  subst h; rfl

/-! ### Fold lemmas for the codec loops -/

theorem fieldKey_of_split {ft : FieldType} {g nm : String}
    (h : splitId ft.Id = (g, some nm)) : fieldKey ft = some (g, nm) := by
  simp [fieldKey, h]

theorem encodeFields_ok {F : Type} (fm : FieldModel F)
    (flds : List (String × F)) :
    ∀ (l : List FieldType) (acc : List ((String × String) × Raw)),
      (∀ ft ∈ l, ∃ f r nm, mapLookup flds ft.Id = some f ∧
        fm.dump f = some r ∧ (splitId ft.Id).2 = some nm) →
      ∃ m, encodeFields fm flds l acc = .ok m
  | [], acc, _ => ⟨acc, rfl⟩
  | ft :: rest, acc, h => by
    obtain ⟨f, r, nm, hf, hd, hs⟩ := h ft (List.mem_cons_self ft rest)
    rcases hsp : splitId ft.Id with ⟨g, nm?⟩
    rw [hsp] at hs
    cases hs
    obtain ⟨m, hm⟩ := encodeFields_ok fm flds rest
      (mapInsert acc (g, nm) r)
      (fun ft' hft' => h ft' (List.mem_cons_of_mem ft hft'))
    refine ⟨m, ?_⟩
    simp only [encodeFields, hf, hd, hsp]
    exact hm

theorem encodeFields_lookup_notmem {F : Type} (fm : FieldModel F)
    (flds : List (String × F)) :
    ∀ (l : List FieldType) (acc m : List ((String × String) × Raw)),
      encodeFields fm flds l acc = .ok m →
      ∀ k, k ∉ l.filterMap fieldKey → mapLookup m k = mapLookup acc k
  | [], acc, m, h, k, _ => by
    simp only [encodeFields, Except.ok.injEq] at h
    rw [← h]
  | ft :: rest, acc, m, h, k, hk => by
    simp only [encodeFields] at h
    cases hf : mapLookup flds ft.Id with
    | none => simp [hf] at h
    | some f =>
      simp only [hf] at h
      cases hd : fm.dump f with
      | none => simp [hd] at h
      | some r =>
        simp only [hd] at h
        rcases hs : splitId ft.Id with ⟨g, nm?⟩
        simp only [hs] at h
        cases nm? with
        | none => simp at h
        | some nm =>
          simp only at h
          have hkey : fieldKey ft = some (g, nm) := fieldKey_of_split hs
          rw [List.filterMap_cons, hkey] at hk
          simp only [List.mem_cons, not_or] at hk
          have hrec := encodeFields_lookup_notmem fm flds rest _ m h k hk.2
          rw [hrec, mapLookup_insert_ne _ _ _ _ (Ne.symm hk.1)]

theorem encodeFields_lookup_mem {F : Type} (fm : FieldModel F)
    (flds : List (String × F)) :
    ∀ (l : List FieldType) (acc m : List ((String × String) × Raw)),
      encodeFields fm flds l acc = .ok m →
      (l.filterMap fieldKey).Nodup →
      ∀ ft ∈ l, ∀ f r g nm, mapLookup flds ft.Id = some f →
        fm.dump f = some r → splitId ft.Id = (g, some nm) →
        mapLookup m (g, nm) = some r
  | [], _, _, _, _ => fun ft hft => absurd hft (List.not_mem_nil ft)
  | ft :: rest, acc, m, h, hnd => fun ft' hft' f r g nm hf hd hs => by
    rcases List.mem_cons.mp hft' with hEq | hmem
    · subst hEq
      simp only [encodeFields, hf, hd, hs] at h
      have hkey : fieldKey ft' = some (g, nm) := fieldKey_of_split hs
      rw [List.filterMap_cons, hkey] at hnd
      have hnotin : (g, nm) ∉ rest.filterMap fieldKey :=
        (List.nodup_cons.mp hnd).1
      rw [encodeFields_lookup_notmem fm flds rest _ m h (g, nm) hnotin,
        mapLookup_insert_self]
    · simp only [encodeFields] at h
      cases hf0 : mapLookup flds ft.Id with
      | none => simp [hf0] at h
      | some f0 =>
        simp only [hf0] at h
        cases hd0 : fm.dump f0 with
        | none => simp [hd0] at h
        | some r0 =>
          simp only [hd0] at h
          rcases hs0 : splitId ft.Id with ⟨g0, nm0?⟩
          simp only [hs0] at h
          cases nm0? with
          | none => simp at h
          | some nm0 =>
            simp only at h
            have hkey0 : fieldKey ft = some (g0, nm0) := fieldKey_of_split hs0
            rw [List.filterMap_cons, hkey0] at hnd
            exact encodeFields_lookup_mem fm flds rest _ m h
              (List.nodup_cons.mp hnd).2 ft' hmem f r g nm hf hd hs

theorem initFields_ok {F : Type} (fm : FieldModel F) :
    ∀ (l : List FieldType) (acc : List (String × F)),
      (∀ ft ∈ l, ∃ f0, fm.initial ft = some f0) →
      ∃ m, initFields fm l acc = some m
  | [], acc, _ => ⟨acc, rfl⟩
  | ft :: rest, acc, h => by
    obtain ⟨f0, hf0⟩ := h ft (List.mem_cons_self ft rest)
    obtain ⟨m, hm⟩ := initFields_ok fm rest (mapInsert acc ft.Id f0)
      (fun ft' hft' => h ft' (List.mem_cons_of_mem ft hft'))
    refine ⟨m, ?_⟩
    simp only [initFields, hf0]
    exact hm

theorem initFields_lookup_notmem {F : Type} (fm : FieldModel F) :
    ∀ (l : List FieldType) (acc m : List (String × F)),
      initFields fm l acc = some m →
      ∀ k, k ∉ l.map FieldType.Id → mapLookup m k = mapLookup acc k
  | [], acc, m, h, k, _ => by
    simp only [initFields, Option.some.injEq] at h
    rw [← h]
  | ft :: rest, acc, m, h, k, hk => by
    simp only [initFields] at h
    cases hf0 : fm.initial ft with
    | none => simp [hf0] at h
    | some f0 =>
      simp only [hf0] at h
      rw [List.map_cons] at hk
      simp only [List.mem_cons, not_or] at hk
      rw [initFields_lookup_notmem fm rest _ m h k hk.2,
        mapLookup_insert_ne _ _ _ _ (Ne.symm hk.1)]

theorem initFields_lookup_mem {F : Type} (fm : FieldModel F) :
    ∀ (l : List FieldType) (acc m : List (String × F)),
      initFields fm l acc = some m → (l.map FieldType.Id).Nodup →
      ∀ ft ∈ l, ∀ f0, fm.initial ft = some f0 → mapLookup m ft.Id = some f0
  | [], _, _, _, _ => fun ft hft => absurd hft (List.not_mem_nil ft)
  | ft :: rest, acc, m, h, hnd => fun ft' hft' f0 hf0 => by
    rcases List.mem_cons.mp hft' with hEq | hmem
    · subst hEq
      simp only [initFields, hf0] at h
      rw [List.map_cons] at hnd
      have hnotin : ft'.Id ∉ rest.map FieldType.Id :=
        (List.nodup_cons.mp hnd).1
      rw [initFields_lookup_notmem fm rest _ m h ft'.Id hnotin,
        mapLookup_insert_self]
    · simp only [initFields] at h
      cases hf1 : fm.initial ft with
      | none => simp [hf1] at h
      | some f1 =>
        simp only [hf1] at h
        rw [List.map_cons] at hnd
        exact initFields_lookup_mem fm rest _ m h
          (List.nodup_cons.mp hnd).2 ft' hmem f0 hf0

theorem loadFields_ok {F : Type} (fm : FieldModel F)
    (raws : List ((String × String) × Raw)) :
    ∀ (l : List FieldType) (acc : List (String × F)) (loaded : List String),
      (∀ ft ∈ l, ∃ nm, (splitId ft.Id).2 = some nm) →
      (∀ ft ∈ l, ∃ f, mapLookup acc ft.Id = some f) →
      ∃ res, loadFields fm raws l acc loaded = .ok res
  | [], acc, loaded, _, _ => ⟨(acc, loaded), rfl⟩
  | ft :: rest, acc, loaded, hdot, hpres => by
    obtain ⟨nm, hs⟩ := hdot ft (List.mem_cons_self ft rest)
    rcases hsp : splitId ft.Id with ⟨g, nm?⟩
    rw [hsp] at hs
    cases hs
    cases hr : mapLookup raws (g, nm) with
    | none =>
      obtain ⟨res, hres⟩ := loadFields_ok fm raws rest acc loaded
        (fun ft' h' => hdot ft' (.tail _ h'))
        (fun ft' h' => hpres ft' (.tail _ h'))
      refine ⟨res, ?_⟩
      simp only [loadFields, hsp, hr]
      exact hres
    | some r =>
      obtain ⟨f, hf⟩ := hpres ft (List.mem_cons_self ft rest)
      have hpres' : ∀ ft' ∈ rest,
          ∃ f', mapLookup (mapInsert acc ft.Id (fm.load f r)) ft'.Id =
            some f' := by
        intro ft' h'
        by_cases hid : ft.Id = ft'.Id
        · exact ⟨fm.load f r, by rw [← hid, mapLookup_insert_self]⟩
        · obtain ⟨f', hf'⟩ := hpres ft' (.tail _ h')
          refine ⟨f', ?_⟩
          rw [mapLookup_insert_ne _ _ _ _ hid]
          exact hf'
      obtain ⟨res, hres⟩ := loadFields_ok fm raws rest
        (mapInsert acc ft.Id (fm.load f r)) (loaded ++ [ft.Id])
        (fun ft' h' => hdot ft' (.tail _ h')) hpres'
      refine ⟨res, ?_⟩
      simp only [loadFields, hsp, hr, hf]
      exact hres

theorem loadFields_lookup_notmem {F : Type} (fm : FieldModel F)
    (raws : List ((String × String) × Raw)) :
    ∀ (l : List FieldType) (acc : List (String × F)) (loaded : List String)
      (res : List (String × F) × List String),
      loadFields fm raws l acc loaded = .ok res →
      ∀ k, k ∉ l.map FieldType.Id → mapLookup res.1 k = mapLookup acc k
  | [], acc, loaded, res, h, k, _ => by
    simp only [loadFields, Except.ok.injEq] at h
    rw [← h]
  | ft :: rest, acc, loaded, res, h, k, hk => by
    simp only [loadFields] at h
    rcases hsp : splitId ft.Id with ⟨g, nm?⟩
    simp only [hsp] at h
    cases nm? with
    | none => simp at h
    | some nm =>
      simp only at h
      rw [List.map_cons] at hk
      simp only [List.mem_cons, not_or] at hk
      cases hr : mapLookup raws (g, nm) with
      | none =>
        simp only [hr] at h
        exact loadFields_lookup_notmem fm raws rest acc loaded res h k hk.2
      | some r =>
        simp only [hr] at h
        cases hf : mapLookup acc ft.Id with
        | none => simp [hf] at h
        | some f =>
          simp only [hf] at h
          rw [loadFields_lookup_notmem fm raws rest _ _ res h k hk.2,
            mapLookup_insert_ne _ _ _ _ (Ne.symm hk.1)]

theorem loadFields_lookup_mem {F : Type} (fm : FieldModel F)
    (raws : List ((String × String) × Raw)) :
    ∀ (l : List FieldType) (acc : List (String × F)) (loaded : List String)
      (res : List (String × F) × List String),
      loadFields fm raws l acc loaded = .ok res →
      (l.map FieldType.Id).Nodup →
      ∀ ft ∈ l, ∀ g nm f, splitId ft.Id = (g, some nm) →
        mapLookup acc ft.Id = some f →
        mapLookup res.1 ft.Id =
          (match mapLookup raws (g, nm) with
           | none => some f
           | some r => some (fm.load f r))
  | [], _, _, _, _, _ => fun ft hft => absurd hft (List.not_mem_nil ft)
  | ft :: rest, acc, loaded, res, h, hnd => fun ft' hft' g nm f hs hf => by
    rcases List.mem_cons.mp hft' with hEq | hmem
    · subst hEq
      simp only [loadFields, hs] at h
      rw [List.map_cons] at hnd
      have hnotin : ft'.Id ∉ rest.map FieldType.Id :=
        (List.nodup_cons.mp hnd).1
      cases hr : mapLookup raws (g, nm) with
      | none =>
        simp only [hr] at h
        rw [loadFields_lookup_notmem fm raws rest acc loaded res h
          ft'.Id hnotin, hf]
      | some r =>
        simp only [hr, hf] at h
        rw [loadFields_lookup_notmem fm raws rest _ _ res h ft'.Id hnotin,
          mapLookup_insert_self]
    · simp only [loadFields] at h
      rcases hsp : splitId ft.Id with ⟨g0, nm0?⟩
      simp only [hsp] at h
      cases nm0? with
      | none => simp at h
      | some nm0 =>
        simp only at h
        rw [List.map_cons] at hnd
        obtain ⟨hhead, htail⟩ := List.nodup_cons.mp hnd
        have hne : ft.Id ≠ ft'.Id := by
          intro hEq
          exact hhead (hEq ▸ List.mem_map_of_mem FieldType.Id hmem)
        cases hr : mapLookup raws (g0, nm0) with
        | none =>
          simp only [hr] at h
          exact loadFields_lookup_mem fm raws rest acc loaded res h htail
            ft' hmem g nm f hs hf
        | some r0 =>
          simp only [hr] at h
          cases hf0 : mapLookup acc ft.Id with
          | none => simp [hf0] at h
          | some f0 =>
            simp only [hf0] at h
            have hf' : mapLookup (mapInsert acc ft.Id (fm.load f0 r0))
                ft'.Id = some f := by
              rw [mapLookup_insert_ne _ _ _ _ hne]
              exact hf
            exact loadFields_lookup_mem fm raws rest _ _ res h htail
              ft' hmem g nm f hs hf'

theorem loadFields_not_loaded {F : Type} (fm : FieldModel F)
    (raws : List ((String × String) × Raw)) :
    ∀ (l : List FieldType) (acc : List (String × F)) (loaded : List String)
      (res : List (String × F) × List String),
      loadFields fm raws l acc loaded = .ok res →
      ∀ x, x ∉ loaded →
        (∀ ft ∈ l, ft.Id = x → ∀ g nm, splitId ft.Id = (g, some nm) →
          mapLookup raws (g, nm) = none) →
        x ∉ res.2
  | [], acc, loaded, res, h, x, hx, _ => by
    simp only [loadFields, Except.ok.injEq] at h
    rw [← h]
    exact hx
  | ft :: rest, acc, loaded, res, h, x, hx, habs => by
    simp only [loadFields] at h
    rcases hsp : splitId ft.Id with ⟨g, nm?⟩
    simp only [hsp] at h
    cases nm? with
    | none => simp at h
    | some nm =>
      simp only at h
      cases hr : mapLookup raws (g, nm) with
      | none =>
        simp only [hr] at h
        exact loadFields_not_loaded fm raws rest acc loaded res h x hx
          (fun ft' h' => habs ft' (.tail _ h'))
      | some r =>
        simp only [hr] at h
        cases hf : mapLookup acc ft.Id with
        | none => simp [hf] at h
        | some f =>
          simp only [hf] at h
          have hxm : x ∉ loaded ++ [ft.Id] := by
            intro hmem
            rcases List.mem_append.mp hmem with h1 | h1
            · exact hx h1
            · have hid : ft.Id = x := (List.mem_singleton.mp h1).symm
              have habs0 := habs ft (List.mem_cons_self ft rest) hid g nm hsp
              rw [habs0] at hr
              cases hr
          exact loadFields_not_loaded fm raws rest _ _ res h x hxm
            (fun ft' h' => habs ft' (.tail _ h'))

theorem nodeToData_eq {F : Type} (fm : FieldModel F) (node : Node F)
    (indent : Bool) (m : List ((String × String) × Raw))
    (hm : encodeFields fm node.Fields (nodeFieldList node) [] = .ok m) :
    (nodeToData fm node indent).1 =
      .ok { Path := "", Changed := node.Changed,
            LocalFields := node.LocalFields, Type' := node.Type'.Id,
            Fields := m } := by
  simp only [nodeFieldList] at hm
  simp only [nodeToData, nodeFieldList, hm]

theorem dataToNode_eq {F : Type} (fm : FieldModel F) (env : nodeJSON)
    (resolver : String → Except String NodeType) (nt : NodeType)
    (f0map flds : List (String × F)) (loaded : List String)
    (hres : resolver env.Type' = .ok nt)
    (hinit : initFields fm (nt.Fields ++ env.LocalFields) [] = some f0map)
    (hload : loadFields fm env.Fields (nt.Fields ++ env.LocalFields) f0map []
      = .ok (flds, loaded)) :
    dataToNode fm (.good env) resolver =
      (.ok (some { Path := env.Path, Type' := nt, Changed := env.Changed,
                   LocalFields := env.LocalFields, Fields := flds }),
       loaded) := by
  simp only [dataToNode, hres, hinit, hload]

/-- The envelope `nodeToData` produces for `n0`. -/
def env0 : nodeJSON :=
  { Path := "", Changed := 5, LocalFields := [], Type' := "page",
    Fields := [(("core", "title"), "About Us"), (("core", "body"), "Hello")] }

/-! ### Claim theorems -/

/-- Claim C7: encoding a node with `nodeToData` never mutates it
observably — the `Path` attribute is temporarily cleared and restored
before `nodeToData` returns on every exit path (the node the caller
observes afterwards equals the original in every attribute and field),
and the produced envelope carries an empty path. -/
theorem node_to_data_no_mutation {F : Type} (fm : FieldModel F)
    (node : Node F) (indent : Bool) :
    (nodeToData fm node indent).2 = node ∧
    (∀ env, (nodeToData fm node indent).1 = .ok env → env.Path = "") :=
  ⟨nodeToData_snd fm node indent, fun _ h => nodeToData_ok_path fm node indent _ h⟩

/-- Claim C7 witness: at the concrete example node, the node observed
after encoding equals the original, and the concrete envelope's path is
empty. -/
theorem node_to_data_no_mutation_witness :
    (nodeToData fm0 n0 true).2 = n0 ∧ env0.Path = "" :=
  ⟨(node_to_data_no_mutation fm0 n0 true).1,
   (node_to_data_no_mutation fm0 n0 true).2 env0 (by decide)⟩

/-- Claim C5: `dataToNode` on zero-length input returns "no node" with no
error (`nil, nil`) regardless of the type resolver, and `GetNode` on an
open client whose reply is empty returns `nil, nil`. -/
theorem empty_data_no_node {F V : Type} (fm : FieldModel F)
    (getNodeType : String → Except String NodeType) (s : MonstiClient V)
    (site path : String) :
    dataToNode fm .empty getNodeType = (.ok none, []) ∧
    (s.Error = none →
      MonstiClient.GetNode fm s site path (.ok .empty) getNodeType =
        (.ok none, ["Monsti.GetNode"])) := by
  refine ⟨rfl, fun h => ?_⟩
  simp [MonstiClient.GetNode, h, dataToNode]

/-- Claim C5 witness: at the concrete open client and resolver. -/
theorem empty_data_no_node_witness :
    dataToNode fm0 .empty resolver0 = (.ok none, []) ∧
    MonstiClient.GetNode fm0 client0 "site" "/about" (.ok .empty) resolver0 =
      (.ok none, ["Monsti.GetNode"]) :=
  ⟨(empty_data_no_node fm0 resolver0 client0 "site" "/about").1,
   (empty_data_no_node fm0 resolver0 client0 "site" "/about").2 rfl⟩

/-- Claim C8: on an open client, `GetRequest` returns the decoded request
when the broker's reply carries the queried id, and the `nil, nil`
"not found" sentinel whenever the reply's id differs from the queried
id. -/
theorem get_request_id_match {V : Type} (s : MonstiClient V) (id : Nat)
    (req : Request) (h : s.Error = none) :
    (req.Id = id →
      MonstiClient.GetRequest s id (.ok req) =
        (.ok (some req), ["Monsti.GetRequest"])) ∧
    (req.Id ≠ id →
      MonstiClient.GetRequest s id (.ok req) =
        (.ok none, ["Monsti.GetRequest"])) := by
  constructor <;> intro hid <;> simp [MonstiClient.GetRequest, h, hid]

/-- A concrete request with id 9. -/
def req9 : Request :=
  { Id := 9, NodePath := "/about", Site := "site", Query := [],
    Method := GetRequestMethod, Session := none, Action := ViewAction,
    FormData := [] }

/-- Claim C8 witness: a reply with matching id 9 is returned; the same
reply queried under id 10 yields the sentinel. -/
theorem get_request_id_match_witness :
    MonstiClient.GetRequest client0 9 (.ok req9) =
      (.ok (some req9), ["Monsti.GetRequest"]) ∧
    MonstiClient.GetRequest client0 10 (.ok req9) =
      (.ok none, ["Monsti.GetRequest"]) :=
  ⟨(get_request_id_match client0 9 req9 rfl).1 rfl,
   (get_request_id_match client0 10 req9 rfl).2 (by decide)⟩

/-- Claim C3 counterexample: on an open client with no handler registered
for the delivered name `"someSignal"`, `WaitSignal` does not return a
typed error — it crashes: the lookup in `SignalHandlers` yields a nil
function whose invocation panics. -/
theorem wait_signal_no_handler_panics_cex :
    (MonstiClient.WaitSignal client0 (.ok ("someSignal", .wrap 37))
       (.ok ())).res = .panicked := by decide

/-- Claim C3 (amended): for a delivered signal name with no locally
registered handler, `WaitSignal` panics (a nil-function call) instead of
returning a `NoHandlerError`-style typed error, invoking no handler; for
a delivered name with a registered handler, that handler is invoked
exactly once with the decoded argument. -/
theorem wait_signal_dispatch {V : Type} (s : MonstiClient V) (name : String)
    (v : V) (finishReply : Except Err Unit) (h : s.Error = none) :
    (mapLookup s.SignalHandlers name = none →
      (MonstiClient.WaitSignal s (.ok (name, .wrap v)) finishReply).res =
        .panicked ∧
      (MonstiClient.WaitSignal s (.ok (name, .wrap v))
         finishReply).handlerCalls = []) ∧
    (∀ handle, mapLookup s.SignalHandlers name = some handle →
      (MonstiClient.WaitSignal s (.ok (name, .wrap v))
         finishReply).handlerCalls = [v]) := by
  constructor
  · intro hnone
    simp [MonstiClient.WaitSignal, h, hnone]
  · intro handle hsome
    simp only [MonstiClient.WaitSignal, h, hsome]
    cases hh : handle v with
    | error e => rfl
    | ok ret => cases finishReply <;> rfl

/-- Claim C3 witness: with no handler the concrete dispatch panics and
invokes nothing; with the registered `"sig"` handler the concrete
dispatch invokes it exactly once with the decoded argument 37. -/
theorem wait_signal_dispatch_witness :
    ((MonstiClient.WaitSignal client0 (.ok ("someSignal", .wrap 37))
        (.ok ())).res = .panicked ∧
     (MonstiClient.WaitSignal client0 (.ok ("someSignal", .wrap 37))
        (.ok ())).handlerCalls = []) ∧
    (MonstiClient.WaitSignal clientH (.ok ("sig", .wrap 37))
       (.ok ())).handlerCalls = [37] :=
  ⟨(wait_signal_dispatch client0 "someSignal" 37 (.ok ()) rfl).1 rfl,
   (wait_signal_dispatch clientH "sig" 37 (.ok ()) rfl).2
     (fun _ => .error "boom") rfl⟩

/-- Claim C4 counterexample: on the concrete client whose `"sig"` handler
fails, `WaitSignal` returns the handler's error but never issues the
`Monsti.FinishSignal` call — the only remote procedure invoked is
`Monsti.WaitSignal`, so nothing is reported upstream. -/
theorem wait_signal_handler_error_skips_finish_cex :
    (MonstiClient.WaitSignal clientH (.ok ("sig", .wrap 1)) (.ok ())).calls =
      ["Monsti.WaitSignal"] ∧
    (MonstiClient.WaitSignal clientH (.ok ("sig", .wrap 1)) (.ok ())).res =
      .err "service: Signal handler for sig returned error: boom" ∧
    (MonstiClient.WaitSignal clientH (.ok ("sig", .wrap 1))
       (.ok ())).finished = none := by decide

/-- Claim C4 (amended): when the locally registered handler returns a
non-nil error, `WaitSignal` returns an error propagating the handler's
failure but does NOT issue the `Monsti.FinishSignal` call — no result is
reported upstream (the emitter is left waiting). -/
theorem wait_signal_handler_error {V : Type} (s : MonstiClient V)
    (name : String) (v : V) (handle : V → Except Err V) (e : Err)
    (finishReply : Except Err Unit) (h : s.Error = none)
    (hh : mapLookup s.SignalHandlers name = some handle)
    (he : handle v = .error e) :
    (MonstiClient.WaitSignal s (.ok (name, .wrap v)) finishReply).res =
      .err ("service: Signal handler for " ++ name ++
            " returned error: " ++ e) ∧
    (MonstiClient.WaitSignal s (.ok (name, .wrap v)) finishReply).calls =
      ["Monsti.WaitSignal"] ∧
    (MonstiClient.WaitSignal s (.ok (name, .wrap v)) finishReply).finished =
      none := by
  simp [MonstiClient.WaitSignal, h, hh, he]

/-- Claim C4 witness: at the concrete failing handler. -/
theorem wait_signal_handler_error_witness :
    (MonstiClient.WaitSignal clientH (.ok ("sig", .wrap 2)) (.ok ())).res =
      .err ("service: Signal handler for " ++ "sig" ++
            " returned error: " ++ "boom") ∧
    (MonstiClient.WaitSignal clientH (.ok ("sig", .wrap 2)) (.ok ())).calls =
      ["Monsti.WaitSignal"] ∧
    (MonstiClient.WaitSignal clientH (.ok ("sig", .wrap 2))
       (.ok ())).finished = none :=
  wait_signal_handler_error clientH "sig" 2 (fun _ => .error "boom") "boom"
    (.ok ()) rfl rfl rfl

/-- Claim C9 counterexample: the empty JSON object `{}` is a well-formed
reply, yet `getConfig` (and hence `GetSiteConfig` on an open client)
panics on it — `MapKeys()[0]` indexes an empty key list. -/
theorem get_config_empty_object_panics_cex :
    getConfig (ConfReply.obj ([] : List (String × Option Nat))) 7 =
      .panicked ∧
    MonstiClient.GetSiteConfig client0 "site" "name"
      (.ok (ConfReply.obj ([] : List (String × Option Nat)))) 7 =
      (.panicked, ["Monsti.GetSiteConfig"]) := by decide

/-- Claim C9 (amended): `GetSiteConfig` on an open client treats the
reply as a `{name: value}` mapping and extracts exactly the first key's
value into `out` (remaining entries are ignored, and a `null` first value
leaves `out` unchanged); a zero-length reply leaves `out` unchanged with
no error; but a well-formed reply that is the empty object `{}` makes the
operation panic rather than return. -/
theorem get_site_config_behavior {V W : Type} (s : MonstiClient V)
    (site name : String) (out : W) (h : s.Error = none) :
    (MonstiClient.GetSiteConfig s site name (.ok .empty) out =
      (.ok out, ["Monsti.GetSiteConfig"])) ∧
    (∀ (k : String) (v : W) (rest : List (String × Option W)),
      MonstiClient.GetSiteConfig s site name (.ok (.obj ((k, some v) :: rest)))
        out = (.ok v, ["Monsti.GetSiteConfig"])) ∧
    (∀ (k : String) (rest : List (String × Option W)),
      MonstiClient.GetSiteConfig s site name (.ok (.obj ((k, none) :: rest)))
        out = (.ok out, ["Monsti.GetSiteConfig"])) ∧
    (MonstiClient.GetSiteConfig s site name (.ok (.obj [])) out =
      (.panicked, ["Monsti.GetSiteConfig"])) := by
  refine ⟨?_, fun k v rest => ?_, fun k rest => ?_, ?_⟩ <;>
    simp [MonstiClient.GetSiteConfig, h, getConfig]

/-- Claim C9 witness: at concrete replies — empty bytes, the single-entry
object whose value is 42, the single-entry object with a null value, and
the empty object. -/
theorem get_site_config_behavior_witness :
    (MonstiClient.GetSiteConfig client0 "site" "name" (.ok .empty) 7 =
      (.ok 7, ["Monsti.GetSiteConfig"])) ∧
    (MonstiClient.GetSiteConfig client0 "site" "name"
       (.ok (.obj [("name", some 42)])) 7 =
      (.ok 42, ["Monsti.GetSiteConfig"])) ∧
    (MonstiClient.GetSiteConfig client0 "site" "name"
       (.ok (.obj [("name", (none : Option Nat))])) 7 =
      (.ok 7, ["Monsti.GetSiteConfig"])) ∧
    (MonstiClient.GetSiteConfig client0 "site" "name"
       (.ok (.obj ([] : List (String × Option Nat)))) 7 =
      (.panicked, ["Monsti.GetSiteConfig"])) :=
  ⟨(get_site_config_behavior client0 "site" "name" 7 rfl).1,
   (get_site_config_behavior client0 "site" "name" 7 rfl).2.1 "name" 42 [],
   (get_site_config_behavior client0 "site" "name" 7 rfl).2.2.1 "name" [],
   (get_site_config_behavior client0 "site" "name" 7 rfl).2.2.2⟩

/-- Claim C1 counterexample: on the concrete client whose sticky error is
`"connection failed"`, `WriteNode` performs no transport I/O but returns
`nil` (success) rather than the stored error value, and `GetNode` returns
`nil, nil` rather than the stored error. -/
theorem sticky_error_swallowed_cex :
    (MonstiClient.WriteNode fm0 clientErr "site" "/about" n0 0
       (.ok ())).res = .ok () ∧
    (MonstiClient.WriteNode fm0 clientErr "site" "/about" n0 0
       (.ok ())).res ≠ .err "connection failed" ∧
    (MonstiClient.GetNode fm0 clientErr "site" "/about" (.ok .empty)
       resolver0).1 = .ok none := by decide

/-- Claim C1 (amended): once a client's sticky error is set, every
operation short-circuits without performing any transport I/O (its trace
of invoked remote procedures is empty), and `ModuleInitDone`,
`GetChildren`, `GetNodeData`, `GetSiteConfig`, `GetRequest`, `EmitSignal`
and `WaitSignal` return the stored error value — but `WriteNode`,
`WriteNodeData`, `RemoveNode` and `RenameNode` return `nil` (success) and
`GetNode` returns `nil, nil`, silently discarding the stored error. -/
theorem sticky_error_short_circuit {F V W : Type} (fm : FieldModel F)
    (s : MonstiClient V) (e : Err) (h : s.Error = some e)
    (module site path file source target name : String) (node : Node F)
    (now : Nat) (id : Nat) (args : V) (out : W) (content : MonstiClient.Bytes)
    (r1 : Except Err Unit) (r2 : Except Err NodeData)
    (r3 : Except Err (List NodeData)) (r4 : Except Err MonstiClient.Bytes)
    (r5 r6 r7 r8 : Except Err Unit) (r9 : Except Err (ConfReply W))
    (r10 : Except Err Request) (r11 : Except Err (List (GobMsg V)))
    (r12 : Except Err (String × GobMsg V)) (r13 : Except Err Unit)
    (getNodeType : String → Except String NodeType) :
    MonstiClient.ModuleInitDone s module r1 = (.err e, []) ∧
    MonstiClient.GetNode fm s site path r2 getNodeType = (.ok none, []) ∧
    MonstiClient.WriteNode fm s site path node now r5 =
      ⟨.ok (), node, none, []⟩ ∧
    MonstiClient.GetChildren fm s site path r3 getNodeType = (.err e, []) ∧
    MonstiClient.GetNodeData s site path file r4 = (.err e, []) ∧
    MonstiClient.WriteNodeData s site path file content r6 = (.ok (), []) ∧
    MonstiClient.RemoveNode s site path r7 = (.ok (), []) ∧
    MonstiClient.RenameNode s site source target r8 = (.ok (), []) ∧
    MonstiClient.GetSiteConfig s site name r9 out = (.err e, []) ∧
    MonstiClient.GetRequest s id r10 = (.err e, []) ∧
    MonstiClient.EmitSignal s name args r11 = (.err e, []) ∧
    MonstiClient.WaitSignal s r12 r13 = ⟨.err e, [], [], none⟩ := by
  refine ⟨?_, ?_, ?_, ?_, ?_, ?_, ?_, ?_, ?_, ?_, ?_, ?_⟩ <;>
    simp [MonstiClient.ModuleInitDone, MonstiClient.GetNode,
          MonstiClient.WriteNode, MonstiClient.GetChildren,
          MonstiClient.GetNodeData, MonstiClient.WriteNodeData,
          MonstiClient.RemoveNode, MonstiClient.RenameNode,
          MonstiClient.GetSiteConfig, MonstiClient.GetRequest,
          MonstiClient.EmitSignal, MonstiClient.WaitSignal, h]

/-- Claim C1 witness: the amended behavior at the concrete sticky-errored
client (stored error `"connection failed"`), with concrete arguments and
replies for each operation. -/
theorem sticky_error_short_circuit_witness :
    MonstiClient.ModuleInitDone clientErr "mod" (.ok ()) =
      (.err "connection failed", []) ∧
    MonstiClient.GetNode fm0 clientErr "site" "/p" (.ok .empty) resolver0 =
      (.ok none, []) ∧
    MonstiClient.WriteNode fm0 clientErr "site" "/p" n0 3 (.ok ()) =
      ⟨.ok (), n0, none, []⟩ ∧
    MonstiClient.GetChildren fm0 clientErr "site" "/p" (.ok []) resolver0 =
      (.err "connection failed", []) ∧
    MonstiClient.GetNodeData clientErr "site" "/p" "f" (.ok []) =
      (.err "connection failed", []) ∧
    MonstiClient.WriteNodeData clientErr "site" "/p" "f" ([] : MonstiClient.Bytes)
      (.ok ()) = (.ok (), []) ∧
    MonstiClient.RemoveNode clientErr "site" "/p" (.ok ()) = (.ok (), []) ∧
    MonstiClient.RenameNode clientErr "site" "/p" "/q" (.ok ()) =
      (.ok (), []) ∧
    MonstiClient.GetSiteConfig clientErr "site" "name"
      (.ok (ConfReply.empty : ConfReply Nat)) 7 =
      (.err "connection failed", []) ∧
    MonstiClient.GetRequest clientErr 9 (.ok req9) =
      (.err "connection failed", []) ∧
    MonstiClient.EmitSignal clientErr "sig" 1 (.ok []) =
      (.err "connection failed", []) ∧
    MonstiClient.WaitSignal clientErr (.ok ("sig", .wrap 1)) (.ok ()) =
      ⟨.err "connection failed", [], [], none⟩ :=
  sticky_error_short_circuit fm0 clientErr "connection failed" rfl
    "mod" "site" "/p" "f" "/p" "/q" "name" n0 3 9 1 7 []
    (.ok ()) (.ok .empty) (.ok []) (.ok []) (.ok ()) (.ok ()) (.ok ())
    (.ok ()) (.ok .empty) (.ok req9) (.ok []) (.ok ("sig", .wrap 1))
    (.ok ()) resolver0

/-- Claim C10: on an open client, `WriteNode` mutates the caller's node
before serializing it — after the call the node equals the original with
`Changed` set to the current time (all other attributes and fields are
unchanged, on success and failure paths alike), and whenever an envelope
is written, its persisted `Changed` timestamp is the write time. -/
theorem write_node_stamps_changed {F V : Type} (fm : FieldModel F)
    (s : MonstiClient V) (site path : String) (node : Node F) (now : Nat)
    (writeReply : Except Err Unit) (h : s.Error = none) :
    (MonstiClient.WriteNode fm s site path node now writeReply).node =
      { node with Changed := now } ∧
    (∀ env,
      (MonstiClient.WriteNode fm s site path node now writeReply).written =
        some env → env.Changed = now) := by
  have hsnd := nodeToData_snd fm { node with Changed := now } true
  simp only [MonstiClient.WriteNode, h]
  rcases hx : nodeToData fm { node with Changed := now } true with ⟨res, node2⟩
  rw [hx] at hsnd
  simp only [Prod.snd] at hsnd
  cases res with
  | error e =>
    refine ⟨?_, ?_⟩
    · cases hp : e.isPanic <;> simp [hp, hsnd]
    · intro env henv
      cases hp : e.isPanic <;> simp [hp] at henv
  | ok env =>
    have hch : env.Changed = now := by
      have h2 := nodeToData_ok_changed fm { node with Changed := now } true env
        (by rw [hx])
      simpa using h2
    refine ⟨?_, ?_⟩
    · rcases writeReply with re | ru <;>
        simp [MonstiClient.WriteNodeData, h, hsnd]
    · intro env' henv'
      rcases writeReply with re | ru <;>
        simp [MonstiClient.WriteNodeData, h] at henv' <;>
        subst henv' <;> exact hch

/-- Claim C10 witness: writing the concrete example node at time 11 on
the concrete open client leaves the caller's node stamped with
`Changed = 11` and persists an envelope stamped 11. -/
theorem write_node_stamps_changed_witness :
    (MonstiClient.WriteNode fm0 client0 "site" "/about" n0 11
       (.ok ())).node = { n0 with Changed := 11 } ∧
    (∀ env,
      (MonstiClient.WriteNode fm0 client0 "site" "/about" n0 11
         (.ok ())).written = some env → env.Changed = 11) :=
  write_node_stamps_changed fm0 client0 "site" "/about" n0 11 (.ok ()) rfl

/-- Claim C2: for every node whose node type and field implementations are
known (each declared field id is namespaced, has a value whose dump
succeeds, a fresh default, and a load that inverts the dump; declared
keys and ids are duplicate-free; the node carries values only for
declared fields), decoding the envelope produced by encoding the node,
with a type resolver that returns the node's own type, reconstructs a
node equal to the original in every attribute and in every field — except
the path attribute, which is not part of the payload (the decoded path is
the envelope's empty path) and must be restored by the caller. -/
theorem codec_round_trip {F : Type} (fm : FieldModel F) (n : Node F)
    (indent : Bool) (resolver : String → Except String NodeType)
    (hres : resolver n.Type'.Id = .ok n.Type')
    (hfields : ∀ ft ∈ nodeFieldList n, ∃ f r f0 nm,
      mapLookup n.Fields ft.Id = some f ∧ fm.dump f = some r ∧
      fm.initial ft = some f0 ∧ fm.load f0 r = f ∧
      (splitId ft.Id).2 = some nm)
    (hkeys : ((nodeFieldList n).filterMap fieldKey).Nodup)
    (hids : ((nodeFieldList n).map FieldType.Id).Nodup)
    (hdom : ∀ k, (mapLookup n.Fields k).isSome →
      k ∈ (nodeFieldList n).map FieldType.Id) :
    ∃ env dec,
      (nodeToData fm n indent).1 = .ok env ∧
      (dataToNode fm (.good env) resolver).1 = .ok (some dec) ∧
      dec.Path = "" ∧ dec.Type' = n.Type' ∧ dec.Changed = n.Changed ∧
      dec.LocalFields = n.LocalFields ∧
      ∀ k, mapLookup dec.Fields k = mapLookup n.Fields k := by
  obtain ⟨m, hm⟩ := encodeFields_ok fm n.Fields (nodeFieldList n) []
    (by
      intro ft hft
      obtain ⟨f, r, f0, nm, h1, h2, _, _, h5⟩ := hfields ft hft
      exact ⟨f, r, nm, h1, h2, h5⟩)
  obtain ⟨f0map, hinit⟩ := initFields_ok fm (nodeFieldList n) []
    (by
      intro ft hft
      obtain ⟨f, r, f0, nm, _, _, h3, _, _⟩ := hfields ft hft
      exact ⟨f0, h3⟩)
  obtain ⟨⟨flds, loaded⟩, hload⟩ := loadFields_ok fm m (nodeFieldList n)
    f0map []
    (by
      intro ft hft
      obtain ⟨f, r, f0, nm, _, _, _, _, h5⟩ := hfields ft hft
      exact ⟨nm, h5⟩)
    (by
      intro ft hft
      obtain ⟨f, r, f0, nm, _, _, h3, _, _⟩ := hfields ft hft
      exact ⟨f0, initFields_lookup_mem fm (nodeFieldList n) [] f0map hinit
        hids ft hft f0 h3⟩)
  refine ⟨{ Path := "", Changed := n.Changed, LocalFields := n.LocalFields,
            Type' := n.Type'.Id, Fields := m },
          { Path := "", Type' := n.Type', Changed := n.Changed,
            LocalFields := n.LocalFields, Fields := flds },
          nodeToData_eq fm n indent m hm, ?_, rfl, rfl, rfl, rfl, ?_⟩
  · have hdec := dataToNode_eq fm
      { Path := "", Changed := n.Changed, LocalFields := n.LocalFields,
        Type' := n.Type'.Id, Fields := m } resolver n.Type' f0map flds
      loaded hres hinit hload
    rw [hdec]
  · intro k
    by_cases hk : k ∈ (nodeFieldList n).map FieldType.Id
    · obtain ⟨ft, hft, hftk⟩ := List.mem_map.mp hk
      subst hftk
      obtain ⟨f, r, f0, nm, h1, h2, h3, h4, h5⟩ := hfields ft hft
      rcases hsp : splitId ft.Id with ⟨g, nm?⟩
      rw [hsp] at h5
      cases h5
      have hmraw : mapLookup m (g, nm) = some r :=
        encodeFields_lookup_mem fm n.Fields (nodeFieldList n) [] m hm hkeys
          ft hft f r g nm h1 h2 hsp
      have hinitv : mapLookup f0map ft.Id = some f0 :=
        initFields_lookup_mem fm (nodeFieldList n) [] f0map hinit hids
          ft hft f0 h3
      have hfinal := loadFields_lookup_mem fm m (nodeFieldList n) f0map []
        (flds, loaded) hload hids ft hft g nm f0 hsp hinitv
      rw [hmraw] at hfinal
      simp only at hfinal
      rw [hfinal, h4, h1]
    · have h6 := loadFields_lookup_notmem fm m (nodeFieldList n) f0map []
        (flds, loaded) hload k hk
      have h7 := initFields_lookup_notmem fm (nodeFieldList n) [] f0map
        hinit k hk
      simp only at h6
      rw [h6, h7]
      cases hv : mapLookup n.Fields k with
      | none => rfl
      | some v => exact absurd (hdom k (by rw [hv]; rfl)) hk

/-- Claim C2 witness: the spec's example scenario — the `"page"` node at
`/about` with title `"About Us"` and body `"Hello"` round-trips through
the codec with a resolver returning `pageType`. -/
theorem codec_round_trip_witness :
    ∃ env dec,
      (nodeToData fm0 n0 true).1 = .ok env ∧
      (dataToNode fm0 (.good env) resolver0).1 = .ok (some dec) ∧
      dec.Path = "" ∧ dec.Type' = n0.Type' ∧ dec.Changed = n0.Changed ∧
      dec.LocalFields = n0.LocalFields ∧
      ∀ k, mapLookup dec.Fields k = mapLookup n0.Fields k := by
  refine codec_round_trip fm0 n0 true resolver0 rfl ?_ (by decide)
    (by decide) ?_
  · intro ft hft
    have hft' : ft = { Id := "core.title" } ∨ ft = { Id := "core.body" } := by
      simpa [nodeFieldList, n0, pageType] using hft
    rcases hft' with h | h <;> subst h
    · exact ⟨"About Us", "About Us", "", "title", by decide, rfl, rfl, rfl,
        by decide⟩
    · exact ⟨"Hello", "Hello", "", "body", by decide, rfl, rfl, rfl,
        by decide⟩
  · intro k hk
    simp only [n0, mapLookup] at hk
    by_cases h1 : "core.title" = k
    · subst h1; decide
    · by_cases h2 : "core.body" = k
      · subst h2; decide
      · simp [h1, h2] at hk

/-- Claim C6: decoding an envelope whose `Fields` mapping omits the raw
dump for some declared field id (declared by the resolved node type or by
the node's local fields) succeeds, the corresponding field of the
returned node stays at its freshly-initialized default, and that field's
`Load` operation is never invoked — the omission is not an error. -/
theorem missing_field_left_default {F : Type} (fm : FieldModel F)
    (env : nodeJSON) (resolver : String → Except String NodeType)
    (nt : NodeType) (ft : FieldType) (g nm : String) (f0 : F)
    (hres : resolver env.Type' = .ok nt)
    (hinit : ∀ ft' ∈ nt.Fields ++ env.LocalFields,
      ∃ f', fm.initial ft' = some f')
    (hdot : ∀ ft' ∈ nt.Fields ++ env.LocalFields,
      ∃ nm', (splitId ft'.Id).2 = some nm')
    (hids : ((nt.Fields ++ env.LocalFields).map FieldType.Id).Nodup)
    (hft : ft ∈ nt.Fields ++ env.LocalFields)
    (hsp : splitId ft.Id = (g, some nm))
    (habs : mapLookup env.Fields (g, nm) = none)
    (hf0 : fm.initial ft = some f0) :
    ∃ dec, (dataToNode fm (.good env) resolver).1 = .ok (some dec) ∧
      mapLookup dec.Fields ft.Id = some f0 ∧
      ft.Id ∉ (dataToNode fm (.good env) resolver).2 := by
  obtain ⟨f0map, hinitm⟩ :=
    initFields_ok fm (nt.Fields ++ env.LocalFields) [] hinit
  obtain ⟨⟨flds, loaded⟩, hload⟩ := loadFields_ok fm env.Fields
    (nt.Fields ++ env.LocalFields) f0map [] hdot
    (by
      intro ft' hft'
      obtain ⟨f', hf'⟩ := hinit ft' hft'
      exact ⟨f', initFields_lookup_mem fm (nt.Fields ++ env.LocalFields) []
        f0map hinitm hids ft' hft' f' hf'⟩)
  have hdec := dataToNode_eq fm env resolver nt f0map flds loaded hres
    hinitm hload
  refine ⟨_, by rw [hdec], ?_, ?_⟩
  · have hinitv : mapLookup f0map ft.Id = some f0 :=
      initFields_lookup_mem fm (nt.Fields ++ env.LocalFields) [] f0map
        hinitm hids ft hft f0 hf0
    have hfinal := loadFields_lookup_mem fm env.Fields
      (nt.Fields ++ env.LocalFields) f0map [] (flds, loaded) hload hids
      ft hft g nm f0 hsp hinitv
    rw [habs] at hfinal
    simpa using hfinal
  · rw [hdec]
    refine loadFields_not_loaded fm env.Fields (nt.Fields ++ env.LocalFields)
      f0map [] (flds, loaded) hload ft.Id (List.not_mem_nil _) ?_
    intro ft' hft' hid g' nm' hsp'
    have hftEq : ft' = ft :=
      List.inj_on_of_nodup_map hids hft' hft hid
    subst hftEq
    rw [hsp'] at hsp
    cases hsp
    exact habs

/-- The example envelope with the raw dump for `"core.body"` omitted. -/
def env1 : nodeJSON :=
  { Path := "", Changed := 5, LocalFields := [], Type' := "page",
    Fields := [(("core", "title"), "About Us")] }

/-- Claim C6 witness: decoding the concrete envelope that omits
`"core.body"` succeeds, leaves the body field at its default `""`, and
never invokes its `Load`. -/
theorem missing_field_left_default_witness :
    ∃ dec, (dataToNode fm0 (.good env1) resolver0).1 = .ok (some dec) ∧
      mapLookup dec.Fields (FieldType.Id { Id := "core.body" }) = some "" ∧
      FieldType.Id { Id := "core.body" } ∉
        (dataToNode fm0 (.good env1) resolver0).2 := by
  refine missing_field_left_default fm0 env1 resolver0 pageType
    { Id := "core.body" } "core" "body" "" rfl ?_ ?_ (by decide) (by decide)
    (by decide) (by decide) rfl
  · intro ft' hft'
    exact ⟨"", rfl⟩
  · intro ft' hft'
    have h := by simpa [env1, pageType] using hft'
    rcases h with h | h <;> subst h
    · exact ⟨"title", by decide⟩
    · exact ⟨"body", by decide⟩

end Monsti
